import Mathlib

/-!
# Certificate reconciliation policy engine: a shallow embedding

This file embeds the certificate policy engine of the cert-manager
repository (package `policies`): the input triple, the result triple, the
policy functions, and the two chain constructors, together with theorems
about the behaviour of `Chain.Evaluate` on the trigger chain and the two
secret-template policies.

The repository snapshot contains the package's test file
(`Test_NewTriggerPolicyChain`, `Test_SecretTemplateMismatchesSecret`,
`Test_SecretTemplateMismatchesSecretManagedFields`) and the file of reason
constants, but not the implementation of the policy functions themselves.
The policy functions below are therefore modelled from the specification,
and where the specification is silent or contradicted by the tests, from
the behaviour the tests pin down; each such definition says so in its doc
comment.  The reason constants are transcribed from the source file that
declares them.

Cryptographic artifacts (PEM private keys, X.509 certificates) are
modelled abstractly: a blob is either raw bytes with no PEM structure, a
private key with an abstract key identity, or a certificate carrying the
identity of the key it was issued for, its common name and its validity
window.  This is exactly the level of detail the policy functions consume:
decode success or failure, public/private key identity match, the compared
spec fields, and the validity window.  Times are integers counting seconds
from the Go zero time (0001-01-01 00:00:00 UTC), and `timeString` below
reproduces Go's default `time.Time.String()` rendering for whole-second
UTC instants, so the renewal message is byte-stable as the tests require.
-/

namespace CertManagerPolicies

/-- Issuer reference `(name, kind, group)`, the triple identifying the
signing authority (`cmmeta.ObjectReference`). -/
structure ObjectReference where
  name : String
  kind : String
  group : String
deriving DecidableEq, Repr

/-- The optional secret template of a Certificate: declared annotations and
labels for the target Secret.  Go maps are embedded as association lists;
lookups take the first binding of a key. -/
structure CertificateSecretTemplate where
  annotations : List (String × String)
  labels : List (String × String)
deriving DecidableEq, Repr

/-- A PKCS#10 certificate signing request, restricted to the spec fields the
policy comparators and the tests exercise. -/
structure CSR where
  commonName : String
deriving DecidableEq, Repr

/-- The declared Certificate resource: spec fields plus the status field
`RenewalTime` the trigger chain reads.  `renewBefore` and `renewalTime` are
in seconds; `renewalTime` counts from the Go zero time. -/
structure Certificate where
  secretName : String
  commonName : String
  issuerRef : ObjectReference
  renewBefore : Option Int
  secretTemplate : Option CertificateSecretTemplate
  renewalTime : Option Int
deriving DecidableEq, Repr

/-- The currently-in-flight or last-completed CertificateRequest for a
Certificate revision: its own issuer reference and its CSR. -/
structure CertificateRequest where
  issuerRef : ObjectReference
  request : CSR
deriving DecidableEq, Repr

/-- A value stored under a key of a Secret's data map, at the level of
detail the policy functions consume: raw bytes with no PEM structure
(such as the literal `"test"` of the tests), a PEM private key with an
abstract key identity, or an X.509 certificate carrying the identity of
the key pair it certifies, its common name, and its validity window
(seconds from the Go zero time). -/
inductive Blob where
  | raw (bytes : String)
  | privateKey (keyId : Nat)
  | certificate (keyId : Nat) (commonName : String) (notBefore notAfter : Int)
deriving DecidableEq, Repr

/-- A decoded `FieldsV1` document: the keys found under
`f:metadata.f:annotations` and `f:metadata.f:labels`, still carrying their
`f:` marker (the policy strips it). -/
structure FieldsV1Model where
  annotationKeys : List String
  labelKeys : List String
deriving DecidableEq, Repr

/-- A `FieldsV1` JSON blob: either malformed (JSON decoding fails) or a
well-formed document. -/
inductive FieldsV1 where
  | malformed
  | wellFormed (fields : FieldsV1Model)
deriving DecidableEq, Repr

/-- One server-side-apply managed-field entry `(manager, fields)`;
`fieldsV1` is `none` when the entry carries no `FieldsV1` document. -/
structure ManagedFieldsEntry where
  manager : String
  fieldsV1 : Option FieldsV1
deriving DecidableEq, Repr

/-- The target Secret: object metadata (annotations, labels, managed-field
entries) and the opaque data map. -/
structure Secret where
  annotations : List (String × String)
  labels : List (String × String)
  managedFields : List ManagedFieldsEntry
  data : List (String × Blob)
deriving DecidableEq, Repr

/-- The immutable input triple passed to every policy function; the request
and the Secret may be absent. -/
structure Input where
  certificate : Certificate
  currentRevisionRequest : Option CertificateRequest
  secret : Option Secret
deriving DecidableEq, Repr

/-- The result triple `(reason, message, violated)` every policy function
returns; for the trigger chain the caller reads `violated` as the reissue
flag. -/
structure Result where
  reason : String
  message : String
  violated : Bool
deriving DecidableEq, Repr

/-- The non-violation result `("", "", false)`. -/
def emptyResult : Result := ⟨"", "", false⟩

/-- A policy function: `Input → (reason, message, violated)`. -/
abbrev PolicyFunc := Input → Result

/-- A policy chain is an ordered list of policy functions. -/
abbrev Chain := List PolicyFunc

/-! ## Reason constants

Transcribed from the source file of the `policies` package that declares
the closed vocabulary of policy violation reasons. -/

def DoesNotExist : String := "DoesNotExist"

def MissingData : String := "MissingData"

def InvalidKeyPair : String := "InvalidKeyPair"

def InvalidCertificate : String := "InvalidCertificate"

def SecretMismatch : String := "SecretMismatch"

def IncorrectIssuer : String := "IncorrectIssuer"

def RequestChanged : String := "RequestChanged"

def Renewing : String := "Renewing"

def Expired : String := "Expired"

def SecretTemplateMismatch : String := "SecretTemplateMismatch"

def ManagedFieldsParseError : String := "ManagedFieldsParseError"

/-- The closed vocabulary of reason tags, as the spec's data model lists
it. -/
def reasonVocabulary : List String :=
  [DoesNotExist, MissingData, InvalidKeyPair, InvalidCertificate, SecretMismatch,
   IncorrectIssuer, RequestChanged, Renewing, Expired, SecretTemplateMismatch,
   ManagedFieldsParseError]

/-! ## Well-known keys

The conventional TLS data keys of the ambient orchestration system and the
annotation keys the engine reads on Secret objects, with the exact strings
the spec's external-interface section requires. -/

def TLSCertKey : String := "tls.crt"

def TLSPrivateKeyKey : String := "tls.key"

def IssuerNameAnnotationKey : String := "cert-manager.io/issuer-name"

def IssuerKindAnnotationKey : String := "cert-manager.io/issuer-kind"

def IssuerGroupAnnotationKey : String := "cert-manager.io/issuer-group"

def CertificateNameKey : String := "cert-manager.io/certificate-name"

def CommonNameAnnotationKey : String := "cert-manager.io/common-name"

def AltNamesAnnotationKey : String := "cert-manager.io/alt-names"

def IPSANAnnotationKey : String := "cert-manager.io/ip-sans"

def URISANAnnotationKey : String := "cert-manager.io/uri-sans"

/-! ## Go time rendering

`timeString` reproduces the output of Go's default `time.Time.String()`
for whole-second instants in UTC, the format the renewal message embeds
(e.g. `"0001-01-01 00:00:00 +0000 UTC"` for the zero time).  Instants are
seconds from the Go zero time 0001-01-01 00:00:00 UTC; the calendar
conversion is the standard civil-from-days algorithm and is faithful for
the years 0000–9999 the engine can ever print in practice. -/

def pad2 (n : Nat) : String :=
  if n < 10 then "0" ++ toString n else toString n

def pad4 (n : Nat) : String :=
  if n < 10 then "000" ++ toString n
  else if n < 100 then "00" ++ toString n
  else if n < 1000 then "0" ++ toString n
  else toString n

/-- Calendar date `(year, month, day)` from a count of days since
1970-01-01 (negative counts reach back before the epoch). -/
def civilFromDays (z0 : Int) : Int × Nat × Nat :=
  let z : Int := z0 + 719468
  let era : Int := z.ediv 146097
  let doe : Nat := (z - era * 146097).toNat
  let yoe : Nat := (doe - doe / 1460 + doe / 36524 - doe / 146096) / 365
  let doy : Nat := doe - (365 * yoe + yoe / 4 - yoe / 100)
  let mp : Nat := (5 * doy + 2) / 153
  let d : Nat := doy - (153 * mp + 2) / 5 + 1
  let m : Nat := if mp < 10 then mp + 3 else mp - 9
  let y : Int := (yoe : Int) + era * 400
  (if m ≤ 2 then y + 1 else y, m, d)

/-- Days from 0001-01-01 to 1970-01-01, the shift between the Go zero time
and the Unix epoch. -/
def daysToUnixEpoch : Int := 719162

/-- Go's `time.Time.String()` rendering of a whole-second UTC instant given
as seconds from the Go zero time. -/
def timeString (t : Int) : String :=
  let days : Int := t.ediv 86400
  let sod : Nat := (t.emod 86400).toNat
  let ymd := civilFromDays (days - daysToUnixEpoch)
  let y : Int := ymd.1
  let m : Nat := ymd.2.1
  let d : Nat := ymd.2.2
  pad4 y.toNat ++ "-" ++ pad2 m ++ "-" ++ pad2 d ++ " " ++
    pad2 (sod / 3600) ++ ":" ++ pad2 (sod % 3600 / 60) ++ ":" ++ pad2 (sod % 60) ++
    " +0000 UTC"

/-! ## Policy functions (trigger chain steps) -/

/-- Modelled from the spec: step 1 of the trigger chain,
`SecretDoesNotExist` (its implementation is not among the repository's
staged files; only its tests are).  A missing Secret yields `DoesNotExist`. -/
def SecretDoesNotExist : PolicyFunc := fun input =>
  match input.secret with
  | none => ⟨DoesNotExist, "Issuing certificate as Secret does not exist", true⟩
  | some _ => emptyResult

/-- Modelled from the spec: step 2 of the trigger chain, `SecretHasData`
(implementation not staged).  An empty data map yields `MissingData`.  On a
missing Secret the chain has already stopped at step 1, so this function
reports nothing. -/
def SecretHasData : PolicyFunc := fun input =>
  match input.secret with
  | none => emptyResult
  | some s =>
      if s.data.isEmpty then
        ⟨MissingData, "Issuing certificate as Secret does not contain any data", true⟩
      else emptyResult

/-- Modelled from the spec: step 3 of the trigger chain (implementation not
staged).  A data map without the private-key entry, or without the
certificate entry, yields `MissingData` with the sub-message the tests pin
(private key checked first). -/
def SecretHasPrivateKeyAndCertificate : PolicyFunc := fun input =>
  match input.secret with
  | none => emptyResult
  | some s =>
      match List.lookup TLSPrivateKeyKey s.data with
      | none => ⟨MissingData, "Issuing certificate as Secret does not contain a private key", true⟩
      | some _ =>
          match List.lookup TLSCertKey s.data with
          | none => ⟨MissingData, "Issuing certificate as Secret does not contain a certificate", true⟩
          | some _ => emptyResult

/-- Modelled from the spec: the key-pair check underlying step 4
(implementation not staged).  Decoding the certificate blob is attempted
first, then the key blob, then the public keys are compared — the order the
canonical Go TLS errors of the tests pin down.  The result is `none` on a
valid pair and the exact canonical error string otherwise. -/
def keyPairError (certBlob keyBlob : Blob) : Option String :=
  match certBlob with
  | .certificate certKeyId _ _ _ =>
      match keyBlob with
      | .privateKey keyId =>
          if certKeyId = keyId then none
          else some "tls: private key does not match public key"
      | _ => some "tls: failed to find any PEM data in key input"
  | _ => some "tls: failed to find any PEM data in certificate input"

/-- Modelled from the spec: step 4 of the trigger chain,
`SecretKeyPairValid` (implementation not staged).  Any decode failure or
mismatch yields `InvalidKeyPair` with the underlying canonical error
appended.  Missing entries were already reported by step 3. -/
def SecretKeyPairValid : PolicyFunc := fun input =>
  match input.secret with
  | none => emptyResult
  | some s =>
      match List.lookup TLSCertKey s.data, List.lookup TLSPrivateKeyKey s.data with
      | some certBlob, some keyBlob =>
          match keyPairError certBlob keyBlob with
          | some e =>
              ⟨InvalidKeyPair, "Issuing certificate as Secret contains an invalid key-pair: " ++ e, true⟩
          | none => emptyResult
      | _, _ => emptyResult

/-- The value of an annotation on a Secret; an absent annotation reads as
the empty string, as a Go map lookup does. -/
def annotationValue (s : Secret) (key : String) : String :=
  (List.lookup key s.annotations).getD ""

/-- An empty issuer-kind annotation is rendered with the default kind
`Issuer` in the incorrect-issuer message, as the tests pin down. -/
def formatIssuerKind (kind : String) : String :=
  if kind = "" then "Issuer" else kind

/-- An empty issuer-group annotation is rendered with the default group
`cert-manager.io` in the incorrect-issuer message, as the tests pin down. -/
def formatIssuerGroup (group : String) : String :=
  if group = "" then "cert-manager.io" else group

/-- Modelled from the spec: step 5 of the trigger chain,
`SecretIssuerAnnotationsMatch` (implementation not staged).  If any of the
issuer-name, issuer-kind or issuer-group annotations (absent read as empty)
differs from the certificate's `issuerRef`, emit `IncorrectIssuer`; the
message renders the annotation values, with the defaults `Issuer` and
`cert-manager.io` for an empty kind or group as the tests pin down. -/
def SecretIssuerAnnotationsMatch : PolicyFunc := fun input =>
  match input.secret with
  | none => emptyResult
  | some s =>
      let annName := annotationValue s IssuerNameAnnotationKey
      let annKind := annotationValue s IssuerKindAnnotationKey
      let annGroup := annotationValue s IssuerGroupAnnotationKey
      let ref := input.certificate.issuerRef
      if annName ≠ ref.name ∨ annKind ≠ ref.kind ∨ annGroup ≠ ref.group then
        ⟨IncorrectIssuer,
         "Issuing certificate as Secret was previously issued by " ++
           formatIssuerKind annKind ++ "." ++ formatIssuerGroup annGroup ++ "/" ++ annName,
         true⟩
      else emptyResult

/-- Modelled from the spec: the CSR-vs-spec comparator used by step 6
(implementation not staged), restricted to the fields the claims and tests
exercise: the common name and the issuer reference.  It returns the dotted
spec paths that diverge, in lexicographic order. -/
def requestViolations (crt : Certificate) (req : CertificateRequest) : List String :=
  (if req.request.commonName ≠ crt.commonName then ["spec.commonName"] else []) ++
  (if req.issuerRef ≠ crt.issuerRef then ["spec.issuerRef"] else [])

/-- The bracketed field list embedded in divergence messages. -/
def formatFieldList (fields : List String) : String :=
  "[" ++ String.intercalate ", " fields ++ "]"

/-- Modelled from the spec: step 6 of the trigger chain,
`CurrentRequestValidForSpec` (implementation not staged).  Only when a
request is present, compare its CSR and issuer reference to the spec and
emit `RequestChanged` on divergence. -/
def CurrentRequestValidForSpec : PolicyFunc := fun input =>
  match input.currentRevisionRequest with
  | none => emptyResult
  | some req =>
      let viols := requestViolations input.certificate req
      if viols.isEmpty then emptyResult
      else
        ⟨RequestChanged,
         "Fields on existing CertificateRequest resource not up to date: " ++ formatFieldList viols,
         true⟩

/-- Modelled from the spec: the stored-certificate-vs-spec comparator used
by step 7 (implementation not staged), restricted like
`requestViolations` to the fields the claims and tests exercise. -/
def certificateViolations (crt : Certificate) (storedCommonName : String) : List String :=
  if storedCommonName ≠ crt.commonName then ["spec.commonName"] else []

/-- Modelled from the spec: step 7 of the trigger chain,
`CurrentCertificateValidForSpec` (implementation not staged).  Only when no
request is present, parse the stored certificate and compare it to the
spec, emitting `SecretMismatch` on divergence; a stored blob that is no
certificate is reported as `InvalidCertificate` (unreachable after step 4
in the chain). -/
def CurrentCertificateValidForSpec : PolicyFunc := fun input =>
  match input.currentRevisionRequest with
  | some _ => emptyResult
  | none =>
      match input.secret with
      | none => emptyResult
      | some s =>
          match List.lookup TLSCertKey s.data with
          | some (.certificate _ cn _ _) =>
              let viols := certificateViolations input.certificate cn
              if viols.isEmpty then emptyResult
              else
                ⟨SecretMismatch,
                 "Existing issued Secret is not up to date for spec: " ++ formatFieldList viols,
                 true⟩
          | _ => ⟨InvalidCertificate, "Failed to decode stored certificate", true⟩

/-- Modelled from the spec and pinned by the tests: the renewal time the
engine derives from the stored certificate's validity window — `renewBefore`
when set and smaller than the validity duration, otherwise one third of the
validity duration, subtracted from `notAfter`. -/
def renewalTimeFromCert (notBefore notAfter : Int) (renewBefore : Option Int) : Int :=
  let actualDuration := notAfter - notBefore
  let actualRenewBefore :=
    match renewBefore with
    | some d => if d < actualDuration then d else actualDuration / 3
    | none => actualDuration / 3
  notAfter - actualRenewBefore

/-- The rendering of `status.RenewalTime` inside the renewal message. -/
def renewalTimeDisplay (renewalTime : Option Int) : String :=
  match renewalTime with
  | some t => timeString t
  | none => "<nil>"

/-- Modelled from the spec: step 8 of the trigger chain, named
`RenewalTimeReached` by the spec (implementation not staged).  The tests at
lines 347–488 of the staged test file pin its behaviour: the decision
whether to renew is taken from the renewal time derived from the stored
certificate's validity window and `spec.renewBefore` (so a freshly
re-issued certificate does not re-trigger even while `status.RenewalTime`
still lies in the past), while the message renders `status.RenewalTime`
with Go's default time formatting. -/
def RenewalTimeReached (now : Int) : PolicyFunc := fun input =>
  match input.secret with
  | none => emptyResult
  | some s =>
      match List.lookup TLSCertKey s.data with
      | some (.certificate _ _ notBefore notAfter) =>
          if now < renewalTimeFromCert notBefore notAfter input.certificate.renewBefore then
            emptyResult
          else
            ⟨Renewing,
             "Renewing certificate as renewal was scheduled at " ++
               renewalTimeDisplay input.certificate.renewalTime,
             true⟩
      | _ => ⟨InvalidCertificate, "Failed to decode stored certificate", true⟩

/-! ## Secret-template policies -/

/-- Modelled from the spec: `SecretTemplateMismatchesSecret`
(implementation not staged; its tests are).  A nil template never
violates; otherwise every declared annotation pair must appear with the
same value on the Secret, then every declared label pair, annotations
checked first; extra entries on the Secret are not a violation. -/
def SecretTemplateMismatchesSecret : PolicyFunc := fun input =>
  match input.certificate.secretTemplate with
  | none => emptyResult
  | some tmpl =>
      match input.secret with
      | none => emptyResult
      | some s =>
          if tmpl.annotations.all (fun kv => List.lookup kv.1 s.annotations == some kv.2) then
            if tmpl.labels.all (fun kv => List.lookup kv.1 s.labels == some kv.2) then
              emptyResult
            else
              ⟨SecretTemplateMismatch,
               "Certificate's SecretTemplate Labels missing or incorrect value on Secret", true⟩
          else
            ⟨SecretTemplateMismatch,
             "Certificate's SecretTemplate Annotations missing or incorrect value on Secret", true⟩

/-- The `f:` marker of managed-field path elements. -/
def fFieldMarker : String := "f:"

/-- Strips the leading `f:` marker from a managed-field key. -/
def stripFieldMarker (key : String) : String :=
  if key.take 2 = fFieldMarker then key.drop 2 else key

/-- Modelled from the spec: the managed-field collection of
`SecretTemplateMismatchesSecretManagedFields` (implementation not staged).
Walks the entries whose manager matches, decodes each `FieldsV1` document
(`none` overall on the first malformed one), strips the `f:` markers and
unions the annotation keys and the label keys across the matching
entries. -/
def collectOwnedKeys (fieldManager : String) :
    List ManagedFieldsEntry → Option (List String × List String)
  | [] => some ([], [])
  | entry :: rest =>
      if entry.manager = fieldManager then
        match entry.fieldsV1 with
        | some .malformed => none
        | some (.wellFormed fs) =>
            match collectOwnedKeys fieldManager rest with
            | none => none
            | some (anns, labs) =>
                some (fs.annotationKeys.map stripFieldMarker ++ anns,
                      fs.labelKeys.map stripFieldMarker ++ labs)
        | none => collectOwnedKeys fieldManager rest
      else collectOwnedKeys fieldManager rest

/-- The base annotation set the controller always manages. -/
def baseAnnotationKeys : List String :=
  [CertificateNameKey, IssuerNameAnnotationKey, IssuerKindAnnotationKey,
   IssuerGroupAnnotationKey]

/-- The derived-from-cert annotation set, managed only while a certificate
payload is stored. -/
def certDerivedAnnotationKeys : List String :=
  [CommonNameAnnotationKey, AltNamesAnnotationKey, IPSANAnnotationKey,
   URISANAnnotationKey]

/-- Removes every key of `removed` from `keys`. -/
def removeKeys (keys removed : List String) : List String :=
  keys.filter (fun k => !(removed.contains k))

/-- The reduction step of the managed-field comparison: the base annotation
keys are always subtracted from the owned set, the derived-from-cert keys
only when a certificate payload is stored. -/
def reduceOwnedAnnotationKeys (certPresent : Bool) (keys : List String) : List String :=
  let afterBase := removeKeys keys baseAnnotationKeys
  if certPresent then removeKeys afterBase certDerivedAnnotationKeys else afterBase

/-- Exact key-set equality in both directions, ignoring order and
multiplicity. -/
def keySetMatches (owned declared : List String) : Bool :=
  owned.all (fun k => declared.contains k) && declared.all (fun k => owned.contains k)

/-- Modelled from the spec: `SecretTemplateMismatchesSecretManagedFields`
(implementation not staged; its tests are).  Owned annotation and label
keys are collected across the entries of the configured field manager; a
malformed document yields `ManagedFieldsParseError`; the owned annotation
set is reduced (base keys always, derived-from-cert keys only with a
certificate payload) and then compared to the template's key sets for
exact equality in both directions, a nil template demanding that nothing
remain owned. -/
def SecretTemplateMismatchesSecretManagedFields (fieldManager : String) : PolicyFunc :=
  fun input =>
    match input.secret with
    | none => emptyResult
    | some s =>
        match collectOwnedKeys fieldManager s.managedFields with
        | none => ⟨ManagedFieldsParseError, "failed to decode managed fields on Secret", true⟩
        | some (ownedAnnotationKeysRaw, ownedLabelKeys) =>
            let certPresent := (List.lookup TLSCertKey s.data).isSome
            let ownedAnnotationKeys := reduceOwnedAnnotationKeys certPresent ownedAnnotationKeysRaw
            match input.certificate.secretTemplate with
            | none =>
                if ownedAnnotationKeys.isEmpty && ownedLabelKeys.isEmpty then emptyResult
                else
                  ⟨SecretTemplateMismatch,
                   "SecretTemplate is nil, but Secret contains extra managed entries", true⟩
            | some tmpl =>
                if keySetMatches ownedAnnotationKeys (tmpl.annotations.map Prod.fst) &&
                   keySetMatches ownedLabelKeys (tmpl.labels.map Prod.fst) then
                  emptyResult
                else
                  ⟨SecretTemplateMismatch, "Certificate's SecretTemplate doesn't match Secret", true⟩

/-! ## Chains -/

/-- Evaluates the functions of a chain in order and returns the first
result reporting a violation, or `("", "", false)` when none does. -/
def Chain.Evaluate : Chain → Input → Result
  | [], _ => emptyResult
  | f :: rest, input =>
      let r := f input
      if r.violated then r else Chain.Evaluate rest input

/-- Modelled from the spec: `NewTriggerPolicyChain(clock)` assembles the
trigger chain in the fixed order of the spec's §4.2 (implementation not
staged; its tests are).  The injected clock is the instant `now`. -/
def NewTriggerPolicyChain (now : Int) : Chain :=
  [SecretDoesNotExist, SecretHasData, SecretHasPrivateKeyAndCertificate,
   SecretKeyPairValid, SecretIssuerAnnotationsMatch, CurrentRequestValidForSpec,
   CurrentCertificateValidForSpec, RenewalTimeReached now]

/-- Modelled from the spec: `NewReadinessPolicyChain` is the trigger chain
minus the renewal step, with the two secret-template policies appended
(implementation not staged). -/
def NewReadinessPolicyChain (fieldManager : String) : Chain :=
  [SecretDoesNotExist, SecretHasData, SecretHasPrivateKeyAndCertificate,
   SecretKeyPairValid, SecretIssuerAnnotationsMatch, CurrentRequestValidForSpec,
   CurrentCertificateValidForSpec, SecretTemplateMismatchesSecret,
   SecretTemplateMismatchesSecretManagedFields fieldManager]

/-! ## Concrete inputs

Fixtures transcribed from the test cases of `Test_NewTriggerPolicyChain`
and `Test_SecretTemplateMismatchesSecretManagedFields`.  Times are seconds
relative to the Go zero time, the instant the tests' fake clock reads. -/

/-- The field manager name the managed-fields tests configure. -/
def unitTestFieldManager : String := "cert-manager-unit-test"

def testIssuerRef : ObjectReference := ⟨"testissuer", "IssuerKind", "group.example.com"⟩

/-- Secret annotations agreeing with `testIssuerRef`. -/
def matchingIssuerAnnotations : List (String × String) :=
  [(IssuerNameAnnotationKey, "testissuer"), (IssuerKindAnnotationKey, "IssuerKind"),
   (IssuerGroupAnnotationKey, "group.example.com")]

/-- A Certificate with secret name `"something"` and the given common name,
issuer reference, renew-before, secret template and status renewal time. -/
def mkCertificate (cn : String) (ref : ObjectReference) (rb : Option Int)
    (tmpl : Option CertificateSecretTemplate) (rt : Option Int) : Certificate :=
  ⟨"something", cn, ref, rb, tmpl, rt⟩

/-- The freshly re-issued scenario of the tests: `renewBefore` one minute,
stored certificate valid from now for thirty minutes, `status.RenewalTime`
still at now. -/
def freshlyReissuedSecret : Secret :=
  ⟨matchingIssuerAnnotations, [], [],
   [(TLSPrivateKeyKey, Blob.privateKey 0), (TLSCertKey, Blob.certificate 0 "example.com" 0 1800)]⟩

def freshlyReissuedInput : Input :=
  ⟨mkCertificate "example.com" testIssuerRef (some 60) none (some 0), none,
   some freshlyReissuedSecret⟩

/-- A variant of the freshly re-issued scenario: `renewBefore` two minutes,
stored certificate valid from now for one hour, `status.RenewalTime` still
at now. -/
def staleRenewalStatusSecret : Secret :=
  ⟨matchingIssuerAnnotations, [], [],
   [(TLSPrivateKeyKey, Blob.privateKey 0), (TLSCertKey, Blob.certificate 0 "example.com" 0 3600)]⟩

def staleRenewalStatusInput : Input :=
  ⟨mkCertificate "example.com" testIssuerRef (some 120) none (some 0), none,
   some staleRenewalStatusSecret⟩

/-- The renewal-due scenario of the tests: `renewBefore` five minutes,
stored certificate issued thirty minutes ago and expiring in one minute,
`status.RenewalTime` at now. -/
def renewalDueSecret : Secret :=
  ⟨matchingIssuerAnnotations, [], [],
   [(TLSPrivateKeyKey, Blob.privateKey 0), (TLSCertKey, Blob.certificate 0 "example.com" (-1800) 60)]⟩

def renewalDueInput : Input :=
  ⟨mkCertificate "example.com" testIssuerRef (some 300) none (some 0), none,
   some renewalDueSecret⟩

/-- A request whose CSR and issuer reference agree with the spec of
`requestMasksCertInput`. -/
def matchingRequest : CertificateRequest := ⟨testIssuerRef, ⟨"example.com"⟩⟩

/-- The request-masks-certificate scenario of the tests: the stored
certificate carries a common name disagreeing with the spec while a
matching request exists. -/
def requestMasksCertSecret : Secret :=
  ⟨matchingIssuerAnnotations, [], [],
   [(TLSPrivateKeyKey, Blob.privateKey 0),
    (TLSCertKey, Blob.certificate 0 "does-not-matter.example.com" 0 7200)]⟩

def requestMasksCertInput : Input :=
  ⟨mkCertificate "example.com" testIssuerRef none none none, some matchingRequest,
   some requestMasksCertSecret⟩

/-- The old-issuer-annotation scenario of the tests: a valid key pair, an
issuer-name annotation `"oldissuer"` against a spec issuer name
`"testissuer"`, no kind or group annotation. -/
def oldIssuerSecret : Secret :=
  ⟨[(IssuerNameAnnotationKey, "oldissuer")], [], [],
   [(TLSPrivateKeyKey, Blob.privateKey 0), (TLSCertKey, Blob.certificate 0 "example.com" 0 3600)]⟩

def oldIssuerInput : Input :=
  ⟨mkCertificate "" ⟨"testissuer", "", ""⟩ none none none, none, some oldIssuerSecret⟩

/-- The corrupt key-pair scenario of the tests: both data entries are the
raw bytes `"test"` with no PEM structure. -/
def corruptPairSecret : Secret :=
  ⟨[], [], [], [(TLSPrivateKeyKey, Blob.raw "test"), (TLSCertKey, Blob.raw "test")]⟩

def corruptPairInput : Input :=
  ⟨mkCertificate "" ⟨"", "", ""⟩ none none none, none, some corruptPairSecret⟩

/-- The split-across-entries managed-fields scenario of the tests: the
owned keys match the template only once unioned over three entries. -/
def splitTemplate : CertificateSecretTemplate :=
  ⟨[("foo1", "bar1"), ("foo2", "bar2"), ("foo3", "bar3")],
   [("abc", "123"), ("def", "456"), ("ghi", "789")]⟩

def splitEntries : List ManagedFieldsEntry :=
  [⟨unitTestFieldManager, some (FieldsV1.wellFormed ⟨[], ["f:ghi"]⟩)⟩,
   ⟨unitTestFieldManager, some (FieldsV1.wellFormed ⟨["f:foo1", "f:foo3"], ["f:abc", "f:def"]⟩)⟩,
   ⟨unitTestFieldManager, some (FieldsV1.wellFormed ⟨["f:foo1", "f:foo2"], ["f:abc", "f:def"]⟩)⟩]

def splitSecret : Secret := ⟨[], [], splitEntries, []⟩

def splitInput : Input :=
  ⟨mkCertificate "" ⟨"", "", ""⟩ none (some splitTemplate) none, none, some splitSecret⟩

/-- A template that itself declares the derived-from-cert common-name
annotation key. -/
def derivedKeyTemplate : CertificateSecretTemplate :=
  ⟨[(CommonNameAnnotationKey, "example.com")], []⟩

def derivedKeyEntries : List ManagedFieldsEntry :=
  [⟨unitTestFieldManager, some (FieldsV1.wellFormed ⟨["f:cert-manager.io/common-name"], []⟩)⟩]

/-- A Secret owning the common-name annotation while storing no certificate
payload. -/
def derivedKeySecret : Secret := ⟨[], [], derivedKeyEntries, []⟩

def derivedKeyInput : Input :=
  ⟨mkCertificate "" ⟨"", "", ""⟩ none (some derivedKeyTemplate) none, none, some derivedKeySecret⟩

/-- The derived-keys-without-payload scenario of the tests: the base and
derived cert-manager annotations are owned, the data map stores no
certificate payload, the template declares only `foo1`, `foo2`. -/
def derivedOwnedTemplate : CertificateSecretTemplate :=
  ⟨[("foo1", "bar1"), ("foo2", "bar2")], []⟩

def derivedOwnedEntries : List ManagedFieldsEntry :=
  [⟨unitTestFieldManager,
    some (FieldsV1.wellFormed
      ⟨["f:foo1", "f:foo2", "f:cert-manager.io/certificate-name",
        "f:cert-manager.io/issuer-name", "f:cert-manager.io/issuer-kind",
        "f:cert-manager.io/issuer-group", "f:cert-manager.io/common-name",
        "f:cert-manager.io/alt-names", "f:cert-manager.io/ip-sans",
        "f:cert-manager.io/uri-sans"], []⟩)⟩]

def derivedOwnedSecret : Secret := ⟨[], [], derivedOwnedEntries, []⟩

def derivedOwnedInput : Input :=
  ⟨mkCertificate "" ⟨"", "", ""⟩ none (some derivedOwnedTemplate) none, none,
   some derivedOwnedSecret⟩

/-- A template annotation pair present on the Secret with a different
value. -/
def wrongValueTemplate : CertificateSecretTemplate := ⟨[("foo1", "bar1")], []⟩

def wrongValueSecret : Secret := ⟨[("foo1", "bar2")], [], [], []⟩

def wrongValueInput : Input :=
  ⟨mkCertificate "" ⟨"", "", ""⟩ none (some wrongValueTemplate) none, none,
   some wrongValueSecret⟩

/-! ## Well-formedness predicates used by the theorems -/

/-- A result is well-formed for a reason list when it is the non-violation
triple or a violation whose reason is drawn from the list. -/
def resultWellFormed (r : Result) (reasons : List String) : Prop :=
  r = emptyResult ∨ (r.violated = true ∧ r.reason ∈ reasons)

/-- The result invariant of the spec's data model: a non-violation has
empty reason and message, a violation's reason is drawn from the closed
vocabulary, and the violation flag holds exactly when the reason is
non-empty. -/
def resultInvariantHolds (r : Result) : Prop :=
  (r.violated = false → r.reason = "" ∧ r.message = "") ∧
  (r.violated = true → r.reason ∈ reasonVocabulary) ∧
  (r.violated = true ↔ r.reason ≠ "")

/-! ## Chain evaluation lemmas -/

theorem emptyResult_violated : emptyResult.violated = false := rfl

theorem Evaluate_nil (input : Input) : Chain.Evaluate [] input = emptyResult := rfl

theorem Evaluate_cons (f : PolicyFunc) (rest : Chain) (input : Input) :
    Chain.Evaluate (f :: rest) input =
      if (f input).violated then f input else Chain.Evaluate rest input := rfl

/-- `Chain.Evaluate` returns the non-violation triple when every function
passes, and otherwise the result of the first violating function. -/
theorem evaluate_first_violation (chain : Chain) (input : Input) :
    (Chain.Evaluate chain input = emptyResult ∧ ∀ f ∈ chain, (f input).violated = false) ∨
    (∃ pre f post, chain = pre ++ f :: post ∧ (∀ g ∈ pre, (g input).violated = false) ∧
      (f input).violated = true ∧ Chain.Evaluate chain input = f input) := by
  induction chain with
  | nil => exact Or.inl ⟨rfl, by simp⟩
  | cons f rest ih =>
      by_cases h : (f input).violated = true
      · refine Or.inr ⟨[], f, rest, rfl, by simp, h, ?_⟩
        rw [Evaluate_cons, if_pos h]
      · have hf : (f input).violated = false := by
          cases hv : (f input).violated
          · rfl
          · exact absurd hv h
        have he : Chain.Evaluate (f :: rest) input = Chain.Evaluate rest input := by
          rw [Evaluate_cons, if_neg]
          simp [hf]
        rcases ih with ⟨h1, h2⟩ | ⟨pre, g, post, hc, hpre, hg, hres⟩
        · refine Or.inl ⟨by rw [he, h1], ?_⟩
          intro f' hf'
          rcases List.mem_cons.mp hf' with rfl | hmem
          · exact hf
          · exact h2 f' hmem
        · refine Or.inr ⟨f :: pre, g, post, by rw [hc, List.cons_append], ?_, hg, by rw [he, hres]⟩
          intro g' hg'
          rcases List.mem_cons.mp hg' with rfl | hmem
          · exact hf
          · exact hpre g' hmem

/-! ## Per-policy well-formedness -/

theorem resultWellFormed_mono (r : Result) (l l' : List String)
    (hsub : ∀ x ∈ l, x ∈ l') (h : resultWellFormed r l) : resultWellFormed r l' := by
  rcases h with h | ⟨hv, hm⟩
  · exact Or.inl h
  · exact Or.inr ⟨hv, hsub _ hm⟩

theorem secretDoesNotExist_wf (input : Input) :
    resultWellFormed (SecretDoesNotExist input) [DoesNotExist] := by
  rcases input with ⟨c, req, sec⟩
  cases sec <;> simp [SecretDoesNotExist, resultWellFormed]

theorem secretHasData_wf (input : Input) :
    resultWellFormed (SecretHasData input) [MissingData] := by
  rcases input with ⟨c, req, sec⟩
  cases sec
  · simp [SecretHasData, resultWellFormed]
  · simp only [SecretHasData]
    split <;> simp [resultWellFormed]

theorem secretHasPrivateKeyAndCertificate_wf (input : Input) :
    resultWellFormed (SecretHasPrivateKeyAndCertificate input) [MissingData] := by
  rcases input with ⟨c, req, sec⟩
  cases sec with
  | none => simp [SecretHasPrivateKeyAndCertificate, resultWellFormed]
  | some s =>
      simp only [SecretHasPrivateKeyAndCertificate]
      cases List.lookup TLSPrivateKeyKey s.data
      · simp [resultWellFormed]
      · cases List.lookup TLSCertKey s.data <;> simp [resultWellFormed]

theorem secretKeyPairValid_wf (input : Input) :
    resultWellFormed (SecretKeyPairValid input) [InvalidKeyPair] := by
  rcases input with ⟨c, req, sec⟩
  cases sec with
  | none => simp [SecretKeyPairValid, resultWellFormed]
  | some s =>
      simp only [SecretKeyPairValid]
      cases List.lookup TLSCertKey s.data with
      | none => cases List.lookup TLSPrivateKeyKey s.data <;> simp [resultWellFormed]
      | some certBlob =>
          cases List.lookup TLSPrivateKeyKey s.data with
          | none => simp [resultWellFormed]
          | some keyBlob =>
              cases hk : keyPairError certBlob keyBlob <;> simp [hk, resultWellFormed]

theorem secretIssuerAnnotationsMatch_wf (input : Input) :
    resultWellFormed (SecretIssuerAnnotationsMatch input) [IncorrectIssuer] := by
  rcases input with ⟨c, req, sec⟩
  cases sec with
  | none => simp [SecretIssuerAnnotationsMatch, resultWellFormed]
  | some s =>
      simp only [SecretIssuerAnnotationsMatch]
      split <;> simp [resultWellFormed]

theorem currentRequestValidForSpec_wf (input : Input) :
    resultWellFormed (CurrentRequestValidForSpec input) [RequestChanged] := by
  rcases input with ⟨c, req, sec⟩
  cases req with
  | none => simp [CurrentRequestValidForSpec, resultWellFormed]
  | some r =>
      simp only [CurrentRequestValidForSpec]
      split <;> simp [resultWellFormed]

theorem currentCertificateValidForSpec_wf (input : Input) :
    resultWellFormed (CurrentCertificateValidForSpec input)
      [InvalidCertificate, SecretMismatch] := by
  rcases input with ⟨c, req, sec⟩
  cases req with
  | some r => simp [CurrentCertificateValidForSpec, resultWellFormed]
  | none =>
      cases sec with
      | none => simp [CurrentCertificateValidForSpec, resultWellFormed]
      | some s =>
          simp only [CurrentCertificateValidForSpec]
          cases List.lookup TLSCertKey s.data with
          | none => simp [resultWellFormed]
          | some blob =>
              cases blob with
              | certificate keyId cn nb na =>
                  simp only []
                  split <;> simp [resultWellFormed]
              | raw bytes => simp [resultWellFormed]
              | privateKey keyId => simp [resultWellFormed]

theorem renewalTimeReached_wf (now : Int) (input : Input) :
    resultWellFormed (RenewalTimeReached now input) [InvalidCertificate, Renewing] := by
  rcases input with ⟨c, req, sec⟩
  cases sec with
  | none => simp [RenewalTimeReached, resultWellFormed]
  | some s =>
      simp only [RenewalTimeReached]
      cases List.lookup TLSCertKey s.data with
      | none => simp [resultWellFormed]
      | some blob =>
          cases blob with
          | certificate keyId cn nb na =>
              simp only []
              split <;> simp [resultWellFormed]
          | raw bytes => simp [resultWellFormed]
          | privateKey keyId => simp [resultWellFormed]

theorem secretTemplateMismatchesSecret_wf (input : Input) :
    resultWellFormed (SecretTemplateMismatchesSecret input) [SecretTemplateMismatch] := by
  rcases input with ⟨c, req, sec⟩
  rcases c with ⟨sn, cn, ref, rb, tmpl, rt⟩
  cases tmpl with
  | none => simp [SecretTemplateMismatchesSecret, resultWellFormed]
  | some t =>
      cases sec with
      | none => simp [SecretTemplateMismatchesSecret, resultWellFormed]
      | some s =>
          simp only [SecretTemplateMismatchesSecret]
          split <;> [skip; simp [resultWellFormed]]
          split <;> simp [resultWellFormed]

theorem secretTemplateMismatchesSecretManagedFields_wf (fieldManager : String) (input : Input) :
    resultWellFormed (SecretTemplateMismatchesSecretManagedFields fieldManager input)
      [ManagedFieldsParseError, SecretTemplateMismatch] := by
  rcases input with ⟨c, req, sec⟩
  cases sec with
  | none => simp [SecretTemplateMismatchesSecretManagedFields, resultWellFormed]
  | some s =>
      simp only [SecretTemplateMismatchesSecretManagedFields]
      cases collectOwnedKeys fieldManager s.managedFields with
      | none => simp [resultWellFormed]
      | some owned =>
          rcases owned with ⟨anns, labs⟩
          simp only []
          cases c.secretTemplate with
          | none =>
              simp only []
              split <;> simp [resultWellFormed]
          | some t =>
              simp only []
              split <;> simp [resultWellFormed]

/-! ## Chain well-formedness -/

theorem evaluate_wf (chain : Chain) (input : Input)
    (h : ∀ f ∈ chain, resultWellFormed (f input) reasonVocabulary) :
    resultWellFormed (Chain.Evaluate chain input) reasonVocabulary := by
  induction chain with
  | nil => exact Or.inl rfl
  | cons f rest ih =>
      rw [Evaluate_cons]
      split
      · exact h f (List.mem_cons_self f rest)
      · exact ih (fun g hg => h g (List.mem_cons_of_mem f hg))

theorem triggerChain_policies_wf (now : Int) (input : Input) :
    ∀ f ∈ NewTriggerPolicyChain now, resultWellFormed (f input) reasonVocabulary := by
  intro f hf
  simp only [NewTriggerPolicyChain, List.mem_cons, List.not_mem_nil, or_false] at hf
  rcases hf with rfl | rfl | rfl | rfl | rfl | rfl | rfl | rfl
  · exact resultWellFormed_mono _ _ _ (by decide) (secretDoesNotExist_wf input)
  · exact resultWellFormed_mono _ _ _ (by decide) (secretHasData_wf input)
  · exact resultWellFormed_mono _ _ _ (by decide) (secretHasPrivateKeyAndCertificate_wf input)
  · exact resultWellFormed_mono _ _ _ (by decide) (secretKeyPairValid_wf input)
  · exact resultWellFormed_mono _ _ _ (by decide) (secretIssuerAnnotationsMatch_wf input)
  · exact resultWellFormed_mono _ _ _ (by decide) (currentRequestValidForSpec_wf input)
  · exact resultWellFormed_mono _ _ _ (by decide) (currentCertificateValidForSpec_wf input)
  · exact resultWellFormed_mono _ _ _ (by decide) (renewalTimeReached_wf now input)

theorem readinessChain_policies_wf (fieldManager : String) (input : Input) :
    ∀ f ∈ NewReadinessPolicyChain fieldManager, resultWellFormed (f input) reasonVocabulary := by
  intro f hf
  simp only [NewReadinessPolicyChain, List.mem_cons, List.not_mem_nil, or_false] at hf
  rcases hf with rfl | rfl | rfl | rfl | rfl | rfl | rfl | rfl | rfl
  · exact resultWellFormed_mono _ _ _ (by decide) (secretDoesNotExist_wf input)
  · exact resultWellFormed_mono _ _ _ (by decide) (secretHasData_wf input)
  · exact resultWellFormed_mono _ _ _ (by decide) (secretHasPrivateKeyAndCertificate_wf input)
  · exact resultWellFormed_mono _ _ _ (by decide) (secretKeyPairValid_wf input)
  · exact resultWellFormed_mono _ _ _ (by decide) (secretIssuerAnnotationsMatch_wf input)
  · exact resultWellFormed_mono _ _ _ (by decide) (currentRequestValidForSpec_wf input)
  · exact resultWellFormed_mono _ _ _ (by decide) (currentCertificateValidForSpec_wf input)
  · exact resultWellFormed_mono _ _ _ (by decide) (secretTemplateMismatchesSecret_wf input)
  · exact resultWellFormed_mono _ _ _ (by decide)
      (secretTemplateMismatchesSecretManagedFields_wf fieldManager input)

theorem resultWellFormed_invariant (r : Result)
    (h : resultWellFormed r reasonVocabulary) : resultInvariantHolds r := by
  unfold resultInvariantHolds
  rcases h with rfl | ⟨hv, hm⟩
  · refine ⟨fun _ => ⟨rfl, rfl⟩, ?_, ?_⟩
    · intro hc
      exact absurd hc (by decide)
    · decide
  · have hne : r.reason ≠ "" := by
      have hall : ∀ x ∈ reasonVocabulary, x ≠ "" := by decide
      exact hall _ hm
    refine ⟨?_, fun _ => hm, ?_⟩
    · intro hc
      rw [hv] at hc
      simp at hc
    · exact ⟨fun _ => hne, fun _ => hv⟩

/-! ## Stepping lemmas for the trigger chain -/

theorem lookup_some_data_nonempty {k : String} {b : Blob} {l : List (String × Blob)}
    (h : List.lookup k l = some b) : l.isEmpty = false := by
  cases l
  · simp [List.lookup] at h
  · rfl

theorem secretDoesNotExist_pass (input : Input) (s : Secret)
    (hsec : input.secret = some s) : SecretDoesNotExist input = emptyResult := by
  simp [SecretDoesNotExist, hsec]

theorem secretHasData_pass (input : Input) (s : Secret) (hsec : input.secret = some s)
    (hne : s.data.isEmpty = false) : SecretHasData input = emptyResult := by
  simp [SecretHasData, hsec, hne]

theorem secretHasPrivateKeyAndCertificate_pass (input : Input) (s : Secret)
    (keyBlob certBlob : Blob) (hsec : input.secret = some s)
    (hkey : List.lookup TLSPrivateKeyKey s.data = some keyBlob)
    (hcrt : List.lookup TLSCertKey s.data = some certBlob) :
    SecretHasPrivateKeyAndCertificate input = emptyResult := by
  simp [SecretHasPrivateKeyAndCertificate, hsec, hkey, hcrt]

theorem secretKeyPairValid_pass (input : Input) (s : Secret)
    (keyBlob certBlob : Blob) (hsec : input.secret = some s)
    (hkey : List.lookup TLSPrivateKeyKey s.data = some keyBlob)
    (hcrt : List.lookup TLSCertKey s.data = some certBlob)
    (hvalid : keyPairError certBlob keyBlob = none) :
    SecretKeyPairValid input = emptyResult := by
  simp [SecretKeyPairValid, hsec, hkey, hcrt, hvalid]

theorem currentCertificateValidForSpec_skip (input : Input) (req : CertificateRequest)
    (h : input.currentRevisionRequest = some req) :
    CurrentCertificateValidForSpec input = emptyResult := by
  simp [CurrentCertificateValidForSpec, h]

/-! ## Key-set lemmas for the managed-fields policy -/

theorem keySetMatches_iff (owned declared : List String) :
    keySetMatches owned declared = true ↔ (∀ k, k ∈ owned ↔ k ∈ declared) := by
  unfold keySetMatches
  rw [Bool.and_eq_true, List.all_eq_true, List.all_eq_true]
  constructor
  · rintro ⟨h1, h2⟩ k
    exact ⟨fun hk => List.elem_iff.mp (h1 k hk), fun hk => List.elem_iff.mp (h2 k hk)⟩
  · intro h
    exact ⟨fun k hk => List.elem_iff.mpr ((h k).mp hk),
           fun k hk => List.elem_iff.mpr ((h k).mpr hk)⟩

theorem reduceOwnedAnnotationKeys_mem (certPresent : Bool) (keys : List String) (k : String) :
    k ∈ reduceOwnedAnnotationKeys certPresent keys ↔
      (k ∈ keys ∧ k ∉ baseAnnotationKeys ∧
        (certPresent = true → k ∉ certDerivedAnnotationKeys)) := by
  unfold reduceOwnedAnnotationKeys removeKeys
  cases certPresent
  · simp [List.mem_filter, List.elem_iff]
  · simp [List.mem_filter, List.elem_iff]
    tauto

/-- The owned key sets `collectOwnedKeys` returns are exactly the unions,
across the entries of the configured manager carrying a well-formed
document, of the `f:`-stripped annotation keys and label keys. -/
theorem collectOwnedKeys_mem (fieldManager : String) (entries : List ManagedFieldsEntry)
    (anns labs : List String)
    (h : collectOwnedKeys fieldManager entries = some (anns, labs)) :
    (∀ k, k ∈ anns ↔ ∃ e ∈ entries, e.manager = fieldManager ∧
        ∃ fs, e.fieldsV1 = some (FieldsV1.wellFormed fs) ∧
          k ∈ fs.annotationKeys.map stripFieldMarker) ∧
    (∀ k, k ∈ labs ↔ ∃ e ∈ entries, e.manager = fieldManager ∧
        ∃ fs, e.fieldsV1 = some (FieldsV1.wellFormed fs) ∧
          k ∈ fs.labelKeys.map stripFieldMarker) := by
  induction entries generalizing anns labs with
  | nil =>
      simp only [collectOwnedKeys, Option.some.injEq, Prod.mk.injEq] at h
      rcases h with ⟨ha, hl⟩
      subst ha hl
      simp
  | cons e rest ih =>
      unfold collectOwnedKeys at h
      by_cases hm : e.manager = fieldManager
      · rw [if_pos hm] at h
        cases hf : e.fieldsV1 with
        | none =>
            rw [hf] at h
            have hres := ih anns labs h
            constructor
            · intro k
              rw [(hres.1 k), List.exists_mem_cons_iff]
              simp [hf]
            · intro k
              rw [(hres.2 k), List.exists_mem_cons_iff]
              simp [hf]
        | some fv =>
            cases fv with
            | malformed =>
                rw [hf] at h
                cases h
            | wellFormed fs =>
                rw [hf] at h
                cases hr : collectOwnedKeys fieldManager rest with
                | none => rw [hr] at h; cases h
                | some p =>
                    rcases p with ⟨anns', labs'⟩
                    rw [hr] at h
                    simp only [Option.some.injEq, Prod.mk.injEq] at h
                    rcases h with ⟨ha, hl⟩
                    subst ha hl
                    have hres := ih anns' labs' hr
                    constructor
                    · intro k
                      rw [List.mem_append, (hres.1 k), List.exists_mem_cons_iff]
                      simp [hf, hm]
                    · intro k
                      rw [List.mem_append, (hres.2 k), List.exists_mem_cons_iff]
                      simp [hf, hm]
      · rw [if_neg hm] at h
        have hres := ih anns labs h
        constructor
        · intro k
          rw [(hres.1 k), List.exists_mem_cons_iff]
          simp [hm]
        · intro k
          rw [(hres.2 k), List.exists_mem_cons_iff]
          simp [hm]

/-- With a Secret, a template and successfully collected owned key sets,
the managed-fields policy returns the non-violation triple or the generic
mismatch, and the non-violation exactly when the reduced owned annotation
keys and the owned label keys coincide with the template's key sets. -/
theorem managedFields_result (fieldManager : String) (input : Input) (s : Secret)
    (tmpl : CertificateSecretTemplate) (anns labs : List String)
    (hsec : input.secret = some s)
    (htmpl : input.certificate.secretTemplate = some tmpl)
    (hcollect : collectOwnedKeys fieldManager s.managedFields = some (anns, labs)) :
    (SecretTemplateMismatchesSecretManagedFields fieldManager input = emptyResult ∨
     SecretTemplateMismatchesSecretManagedFields fieldManager input =
       ⟨SecretTemplateMismatch, "Certificate's SecretTemplate doesn't match Secret", true⟩) ∧
    (SecretTemplateMismatchesSecretManagedFields fieldManager input = emptyResult ↔
      ((∀ k, k ∈ reduceOwnedAnnotationKeys ((List.lookup TLSCertKey s.data).isSome) anns ↔
          k ∈ tmpl.annotations.map Prod.fst) ∧
       (∀ k, k ∈ labs ↔ k ∈ tmpl.labels.map Prod.fst))) := by
  have hmain : SecretTemplateMismatchesSecretManagedFields fieldManager input =
      (if keySetMatches (reduceOwnedAnnotationKeys ((List.lookup TLSCertKey s.data).isSome) anns)
            (tmpl.annotations.map Prod.fst) &&
          keySetMatches labs (tmpl.labels.map Prod.fst) then emptyResult
       else ⟨SecretTemplateMismatch, "Certificate's SecretTemplate doesn't match Secret", true⟩) := by
    simp [SecretTemplateMismatchesSecretManagedFields, hsec, hcollect, htmpl]
  rw [hmain]
  constructor
  · split
    · exact Or.inl rfl
    · exact Or.inr rfl
  · split
    · rename_i hcond
      rw [Bool.and_eq_true, keySetMatches_iff, keySetMatches_iff] at hcond
      simp only [eq_self_iff_true, true_iff]
      exact hcond
    · rename_i hcond
      constructor
      · intro habs
        exact absurd habs (by decide)
      · intro hsets
        exact absurd (Bool.and_eq_true .. |>.mpr
          ⟨(keySetMatches_iff _ _).mpr hsets.1, (keySetMatches_iff _ _).mpr hsets.2⟩) hcond

/-! ## Claim theorems -/

/-- Claim C1: for every input, `Chain.Evaluate` applies the chain's policy
functions in their fixed order and returns the result triple of the first
function that reports `violated = true`; if no function in the chain
reports a violation, it returns `("", "", false)`. -/
theorem Evaluate_returns_first_violating_triple (chain : Chain) (input : Input) :
    (Chain.Evaluate chain input = emptyResult ∧ ∀ f ∈ chain, (f input).violated = false) ∨
    (∃ pre f post, chain = pre ++ f :: post ∧ (∀ g ∈ pre, (g input).violated = false) ∧
      (f input).violated = true ∧ Chain.Evaluate chain input = f input) :=
  evaluate_first_violation chain input

/-- Claim C4: for every input, the trigger chain's result and the
readiness chain's result respect the result invariants: a non-violation
has empty reason and empty message, a violation's reason is drawn from the
closed vocabulary, and the violation flag — the trigger chain's reissue
verdict — holds exactly when a violating reason is reported. -/
theorem chain_results_respect_invariants (now : Int) (fieldManager : String) (input : Input) :
    resultInvariantHolds (Chain.Evaluate (NewTriggerPolicyChain now) input) ∧
    resultInvariantHolds (Chain.Evaluate (NewReadinessPolicyChain fieldManager) input) :=
  ⟨resultWellFormed_invariant _ (evaluate_wf _ input (triggerChain_policies_wf now input)),
   resultWellFormed_invariant _ (evaluate_wf _ input (readinessChain_policies_wf fieldManager input))⟩

/-- Claim C10: there is an input whose `status.RenewalTime` is non-nil and
equal to the clock's now while the stored certificate was freshly
re-issued (notBefore at now, notAfter far enough beyond `renewBefore`),
and on it the trigger chain reports no violation. -/
theorem freshly_reissued_certificate_not_retriggered :
    Chain.Evaluate (NewTriggerPolicyChain 0) freshlyReissuedInput = emptyResult ∧
    freshlyReissuedInput.certificate.renewalTime = some 0 ∧ (0 : Int) ≤ 0 := by
  decide

/-- Claim C3: with a request present, the trigger chain evaluates the
request's CSR and issuer reference against the spec (violating with reason
`RequestChanged` exactly when they diverge) and never reports the
stored-certificate comparison: the `CurrentCertificateValidForSpec` step
returns the non-violation triple and the chain's reason is never
`SecretMismatch`, so a stored certificate disagreeing with the spec
produces no violation while a matching request exists. -/
theorem request_present_masks_stored_certificate (now : Int) (input : Input)
    (req : CertificateRequest) (h : input.currentRevisionRequest = some req) :
    (Chain.Evaluate (NewTriggerPolicyChain now) input).reason ≠ SecretMismatch ∧
    CurrentCertificateValidForSpec input = emptyResult ∧
    ((CurrentRequestValidForSpec input).violated = true ↔
      requestViolations input.certificate req ≠ []) ∧
    ((CurrentRequestValidForSpec input).violated = true →
      (CurrentRequestValidForSpec input).reason = RequestChanged) := by
  have hskip := currentCertificateValidForSpec_skip input req h
  have hnotsm : ∀ (r : Result) (l : List String), r.reason ∈ l → SecretMismatch ∉ l →
      r.reason ≠ SecretMismatch := fun r l hm hnot heq => hnot (heq ▸ hm)
  refine ⟨?_, hskip, ?_, ?_⟩
  · rcases evaluate_first_violation (NewTriggerPolicyChain now) input with
      ⟨he, _⟩ | ⟨pre, f, post, hc, hpre, hviol, hres⟩
    · rw [he]
      decide
    · have hmem : f ∈ NewTriggerPolicyChain now := by
        rw [hc]
        exact List.mem_append_right _ (List.mem_cons_self _ _)
      rw [hres]
      simp only [NewTriggerPolicyChain, List.mem_cons, List.not_mem_nil, or_false] at hmem
      rcases hmem with rfl | rfl | rfl | rfl | rfl | rfl | rfl | rfl
      · rcases secretDoesNotExist_wf input with heq | ⟨_, hm⟩
        · rw [heq] at hviol
          exact absurd hviol (by decide)
        · exact hnotsm _ _ hm (by decide)
      · rcases secretHasData_wf input with heq | ⟨_, hm⟩
        · rw [heq] at hviol
          exact absurd hviol (by decide)
        · exact hnotsm _ _ hm (by decide)
      · rcases secretHasPrivateKeyAndCertificate_wf input with heq | ⟨_, hm⟩
        · rw [heq] at hviol
          exact absurd hviol (by decide)
        · exact hnotsm _ _ hm (by decide)
      · rcases secretKeyPairValid_wf input with heq | ⟨_, hm⟩
        · rw [heq] at hviol
          exact absurd hviol (by decide)
        · exact hnotsm _ _ hm (by decide)
      · rcases secretIssuerAnnotationsMatch_wf input with heq | ⟨_, hm⟩
        · rw [heq] at hviol
          exact absurd hviol (by decide)
        · exact hnotsm _ _ hm (by decide)
      · rcases currentRequestValidForSpec_wf input with heq | ⟨_, hm⟩
        · rw [heq] at hviol
          exact absurd hviol (by decide)
        · exact hnotsm _ _ hm (by decide)
      · rw [hskip] at hviol
        exact absurd hviol (by decide)
      · rcases renewalTimeReached_wf now input with heq | ⟨_, hm⟩
        · rw [heq] at hviol
          exact absurd hviol (by decide)
        · exact hnotsm _ _ hm (by decide)
  · simp only [CurrentRequestValidForSpec, h]
    split
    · rename_i hemp
      rw [List.isEmpty_iff] at hemp
      simp [emptyResult, hemp]
    · rename_i hemp
      constructor
      · intro _
        intro hnil
        exact hemp (by rw [hnil]; rfl)
      · intro _
        rfl
  · simp only [CurrentRequestValidForSpec, h]
    split
    · intro habs
      exact absurd habs (by decide)
    · intro _
      rfl

/-- Witness for claim C3 at the test scenario where the stored certificate
disagrees with the spec while a matching request exists. -/
theorem request_present_masks_stored_certificate_witness :
    (Chain.Evaluate (NewTriggerPolicyChain 0) requestMasksCertInput).reason ≠ SecretMismatch ∧
    CurrentCertificateValidForSpec requestMasksCertInput = emptyResult := by
  have h := request_present_masks_stored_certificate 0 requestMasksCertInput matchingRequest rfl
  exact ⟨h.1, h.2.1⟩

/-- Claim C6: when the Secret stores both a private-key entry and a
certificate entry, any decode failure or key mismatch makes the trigger
chain return `InvalidKeyPair` with the canonical underlying error appended
to the message, the error being exactly one of the three canonical TLS
strings. -/
theorem invalid_keypair_reports_canonical_error (now : Int) (input : Input) (s : Secret)
    (keyBlob certBlob : Blob) (e : String)
    (hsec : input.secret = some s)
    (hkey : List.lookup TLSPrivateKeyKey s.data = some keyBlob)
    (hcrt : List.lookup TLSCertKey s.data = some certBlob)
    (herr : keyPairError certBlob keyBlob = some e) :
    Chain.Evaluate (NewTriggerPolicyChain now) input =
      ⟨InvalidKeyPair, "Issuing certificate as Secret contains an invalid key-pair: " ++ e, true⟩ ∧
    (e = "tls: failed to find any PEM data in certificate input" ∨
     e = "tls: failed to find any PEM data in key input" ∨
     e = "tls: private key does not match public key") := by
  constructor
  · have h1 := secretDoesNotExist_pass input s hsec
    have h2 := secretHasData_pass input s hsec (lookup_some_data_nonempty hkey)
    have h3 := secretHasPrivateKeyAndCertificate_pass input s keyBlob certBlob hsec hkey hcrt
    have h4 : SecretKeyPairValid input =
        ⟨InvalidKeyPair, "Issuing certificate as Secret contains an invalid key-pair: " ++ e, true⟩ := by
      simp [SecretKeyPairValid, hsec, hcrt, hkey, herr]
    simp [NewTriggerPolicyChain, Evaluate_cons, h1, h2, h3, h4, emptyResult_violated]
  · cases certBlob with
    | certificate kid cn nb na =>
        cases keyBlob with
        | privateKey kid2 =>
            by_cases hk : kid = kid2
            · simp [keyPairError, hk] at herr
            · simp only [keyPairError, if_neg hk, Option.some.injEq] at herr
              exact Or.inr (Or.inr herr.symm)
        | raw bytes =>
            simp only [keyPairError, Option.some.injEq] at herr
            exact Or.inr (Or.inl herr.symm)
        | certificate kid2 cn2 nb2 na2 =>
            simp only [keyPairError, Option.some.injEq] at herr
            exact Or.inr (Or.inl herr.symm)
    | raw bytes =>
        simp only [keyPairError, Option.some.injEq] at herr
        exact Or.inl herr.symm
    | privateKey kid =>
        simp only [keyPairError, Option.some.injEq] at herr
        exact Or.inl herr.symm

/-- Witness for claim C6 at the corrupt key-pair test scenario. -/
theorem invalid_keypair_reports_canonical_error_witness :
    Chain.Evaluate (NewTriggerPolicyChain 0) corruptPairInput =
      ⟨InvalidKeyPair,
       "Issuing certificate as Secret contains an invalid key-pair: tls: failed to find any PEM data in certificate input",
       true⟩ :=
  (invalid_keypair_reports_canonical_error 0 corruptPairInput corruptPairSecret
    (Blob.raw "test") (Blob.raw "test")
    "tls: failed to find any PEM data in certificate input" rfl (by decide) (by decide)
    (by decide)).1

/-- Counterexample to claim C5 as stated: at the old-issuer test scenario
the kind and group annotations are absent (empty), yet the message renders
the defaults `Issuer` and `cert-manager.io` rather than the raw annotation
values. -/
theorem incorrect_issuer_message_uses_defaults_counterexample :
    Chain.Evaluate (NewTriggerPolicyChain 0) oldIssuerInput =
      ⟨IncorrectIssuer,
       "Issuing certificate as Secret was previously issued by Issuer.cert-manager.io/oldissuer",
       true⟩ ∧
    annotationValue oldIssuerSecret IssuerKindAnnotationKey = "" ∧
    annotationValue oldIssuerSecret IssuerGroupAnnotationKey = "" ∧
    "Issuing certificate as Secret was previously issued by Issuer.cert-manager.io/oldissuer" ≠
      "Issuing certificate as Secret was previously issued by " ++
        annotationValue oldIssuerSecret IssuerKindAnnotationKey ++ "." ++
        annotationValue oldIssuerSecret IssuerGroupAnnotationKey ++ "/" ++
        annotationValue oldIssuerSecret IssuerNameAnnotationKey := by
  decide

/-- Claim C5 as amended: with a Secret whose key-pair check passes, any
difference between the issuer-name, issuer-kind or issuer-group
annotations (absent read as empty) and the certificate's `issuerRef` makes
the trigger chain return `IncorrectIssuer`, the message rendering the
annotation values — not the spec values — with the defaults `Issuer` and
`cert-manager.io` replacing an empty kind or group annotation. -/
theorem incorrect_issuer_on_annotation_mismatch (now : Int) (input : Input) (s : Secret)
    (keyBlob certBlob : Blob)
    (hsec : input.secret = some s)
    (hkey : List.lookup TLSPrivateKeyKey s.data = some keyBlob)
    (hcrt : List.lookup TLSCertKey s.data = some certBlob)
    (hvalid : keyPairError certBlob keyBlob = none)
    (hdiff : annotationValue s IssuerNameAnnotationKey ≠ input.certificate.issuerRef.name ∨
             annotationValue s IssuerKindAnnotationKey ≠ input.certificate.issuerRef.kind ∨
             annotationValue s IssuerGroupAnnotationKey ≠ input.certificate.issuerRef.group) :
    Chain.Evaluate (NewTriggerPolicyChain now) input =
      ⟨IncorrectIssuer,
       "Issuing certificate as Secret was previously issued by " ++
         formatIssuerKind (annotationValue s IssuerKindAnnotationKey) ++ "." ++
         formatIssuerGroup (annotationValue s IssuerGroupAnnotationKey) ++ "/" ++
         annotationValue s IssuerNameAnnotationKey, true⟩ := by
  have h1 := secretDoesNotExist_pass input s hsec
  have h2 := secretHasData_pass input s hsec (lookup_some_data_nonempty hkey)
  have h3 := secretHasPrivateKeyAndCertificate_pass input s keyBlob certBlob hsec hkey hcrt
  have h4 := secretKeyPairValid_pass input s keyBlob certBlob hsec hkey hcrt hvalid
  have h5 : SecretIssuerAnnotationsMatch input =
      ⟨IncorrectIssuer,
       "Issuing certificate as Secret was previously issued by " ++
         formatIssuerKind (annotationValue s IssuerKindAnnotationKey) ++ "." ++
         formatIssuerGroup (annotationValue s IssuerGroupAnnotationKey) ++ "/" ++
         annotationValue s IssuerNameAnnotationKey, true⟩ := by
    simp only [SecretIssuerAnnotationsMatch, hsec]
    rw [if_pos hdiff]
  simp [NewTriggerPolicyChain, Evaluate_cons, h1, h2, h3, h4, h5, emptyResult_violated]

/-- Witness for the amended claim C5 at the old-issuer test scenario. -/
theorem incorrect_issuer_on_annotation_mismatch_witness :
    Chain.Evaluate (NewTriggerPolicyChain 0) oldIssuerInput =
      ⟨IncorrectIssuer,
       "Issuing certificate as Secret was previously issued by " ++
         formatIssuerKind (annotationValue oldIssuerSecret IssuerKindAnnotationKey) ++ "." ++
         formatIssuerGroup (annotationValue oldIssuerSecret IssuerGroupAnnotationKey) ++ "/" ++
         annotationValue oldIssuerSecret IssuerNameAnnotationKey, true⟩ :=
  incorrect_issuer_on_annotation_mismatch 0 oldIssuerInput oldIssuerSecret
    (Blob.privateKey 0) (Blob.certificate 0 "example.com" 0 3600) rfl (by decide) (by decide)
    (by decide) (by decide)

/-- Counterexample to claim C2 as stated: the stale-renewal-status
scenario passes the first seven trigger steps and carries a non-nil
`status.RenewalTime` equal to the clock's now, yet the trigger chain
reports no violation at all. -/
theorem renewal_time_reached_insufficient_counterexample :
    SecretDoesNotExist staleRenewalStatusInput = emptyResult ∧
    SecretHasData staleRenewalStatusInput = emptyResult ∧
    SecretHasPrivateKeyAndCertificate staleRenewalStatusInput = emptyResult ∧
    SecretKeyPairValid staleRenewalStatusInput = emptyResult ∧
    SecretIssuerAnnotationsMatch staleRenewalStatusInput = emptyResult ∧
    CurrentRequestValidForSpec staleRenewalStatusInput = emptyResult ∧
    CurrentCertificateValidForSpec staleRenewalStatusInput = emptyResult ∧
    staleRenewalStatusInput.certificate.renewalTime = some 0 ∧ (0 : Int) ≤ 0 ∧
    Chain.Evaluate (NewTriggerPolicyChain 0) staleRenewalStatusInput = emptyResult := by
  decide

/-- Claim C2 as amended: for an input passing the first seven trigger
steps with a certificate stored in the Secret, the chain renews exactly
when the renewal time derived from the stored certificate's validity
window and `spec.renewBefore` is at or before the clock's now (at `≤`, so
a derived renewal time exactly now triggers and one in the future does
not); on renewal the message is `"Renewing certificate as renewal was
scheduled at <status.RenewalTime rendered as Go time.Time.String()>"`. -/
theorem renewal_decided_by_stored_certificate (now : Int) (input : Input) (s : Secret)
    (keyId : Nat) (cn : String) (notBefore notAfter : Int)
    (hsec : input.secret = some s)
    (hcert : List.lookup TLSCertKey s.data = some (Blob.certificate keyId cn notBefore notAfter))
    (h1 : SecretDoesNotExist input = emptyResult)
    (h2 : SecretHasData input = emptyResult)
    (h3 : SecretHasPrivateKeyAndCertificate input = emptyResult)
    (h4 : SecretKeyPairValid input = emptyResult)
    (h5 : SecretIssuerAnnotationsMatch input = emptyResult)
    (h6 : CurrentRequestValidForSpec input = emptyResult)
    (h7 : CurrentCertificateValidForSpec input = emptyResult) :
    (renewalTimeFromCert notBefore notAfter input.certificate.renewBefore ≤ now →
      Chain.Evaluate (NewTriggerPolicyChain now) input =
        ⟨Renewing, "Renewing certificate as renewal was scheduled at " ++
          renewalTimeDisplay input.certificate.renewalTime, true⟩) ∧
    (now < renewalTimeFromCert notBefore notAfter input.certificate.renewBefore →
      Chain.Evaluate (NewTriggerPolicyChain now) input = emptyResult) := by
  constructor
  · intro hle
    have hnotlt : ¬ (now < renewalTimeFromCert notBefore notAfter input.certificate.renewBefore) := by
      omega
    have h8 : RenewalTimeReached now input =
        ⟨Renewing, "Renewing certificate as renewal was scheduled at " ++
          renewalTimeDisplay input.certificate.renewalTime, true⟩ := by
      simp [RenewalTimeReached, hsec, hcert, hnotlt]
    simp [NewTriggerPolicyChain, Evaluate_cons, h1, h2, h3, h4, h5, h6, h7, h8,
      emptyResult_violated]
  · intro hlt
    have h8 : RenewalTimeReached now input = emptyResult := by
      simp [RenewalTimeReached, hsec, hcert, hlt]
    simp [NewTriggerPolicyChain, Evaluate_cons, Evaluate_nil, h1, h2, h3, h4, h5, h6, h7, h8,
      emptyResult_violated]

/-- Witness for the amended claim C2 at the renewal-due test scenario,
with the message rendered exactly as the test expects. -/
theorem renewal_decided_by_stored_certificate_witness :
    Chain.Evaluate (NewTriggerPolicyChain 0) renewalDueInput =
      ⟨Renewing, "Renewing certificate as renewal was scheduled at " ++
        renewalTimeDisplay renewalDueInput.certificate.renewalTime, true⟩ ∧
    renewalTimeDisplay renewalDueInput.certificate.renewalTime =
      "0001-01-01 00:00:00 +0000 UTC" := by
  have h := (renewal_decided_by_stored_certificate 0 renewalDueInput renewalDueSecret 0
    "example.com" (-1800) 60 rfl (by decide) (by decide) (by decide) (by decide) (by decide)
    (by decide) (by decide) (by decide)).1 (by decide)
  exact ⟨h, by decide⟩

/-- Claim C7: with a template present and the managed-field documents all
well-formed, the owned annotation (label) key set is the union across the
matching manager's entries of the `f:`-stripped keys, and after the
reduction step the policy reports nothing exactly when the owned sets
equal the template's key sets in both directions — any other outcome being
the `SecretTemplateMismatch` violation with message `"Certificate's
SecretTemplate doesn't match Secret"`. -/
theorem managed_fields_owned_union_and_exact_equality (fieldManager : String) (input : Input)
    (s : Secret) (tmpl : CertificateSecretTemplate) (anns labs : List String)
    (hsec : input.secret = some s)
    (htmpl : input.certificate.secretTemplate = some tmpl)
    (hcollect : collectOwnedKeys fieldManager s.managedFields = some (anns, labs)) :
    (∀ k, k ∈ anns ↔ ∃ e ∈ s.managedFields, e.manager = fieldManager ∧
        ∃ fs, e.fieldsV1 = some (FieldsV1.wellFormed fs) ∧
          k ∈ fs.annotationKeys.map stripFieldMarker) ∧
    (∀ k, k ∈ labs ↔ ∃ e ∈ s.managedFields, e.manager = fieldManager ∧
        ∃ fs, e.fieldsV1 = some (FieldsV1.wellFormed fs) ∧
          k ∈ fs.labelKeys.map stripFieldMarker) ∧
    (SecretTemplateMismatchesSecretManagedFields fieldManager input = emptyResult ↔
      ((∀ k, k ∈ reduceOwnedAnnotationKeys ((List.lookup TLSCertKey s.data).isSome) anns ↔
          k ∈ tmpl.annotations.map Prod.fst) ∧
       (∀ k, k ∈ labs ↔ k ∈ tmpl.labels.map Prod.fst))) ∧
    (SecretTemplateMismatchesSecretManagedFields fieldManager input = emptyResult ∨
     SecretTemplateMismatchesSecretManagedFields fieldManager input =
       ⟨SecretTemplateMismatch, "Certificate's SecretTemplate doesn't match Secret", true⟩) := by
  have hm := collectOwnedKeys_mem fieldManager s.managedFields anns labs hcollect
  have hr := managedFields_result fieldManager input s tmpl anns labs hsec htmpl hcollect
  exact ⟨hm.1, hm.2, hr.2, hr.1⟩

/-- Witness for claim C7 at the split-across-entries test scenario: the
owned keys assembled from three entries equal the template's key sets, so
no violation is reported. -/
theorem managed_fields_owned_union_and_exact_equality_witness :
    SecretTemplateMismatchesSecretManagedFields unitTestFieldManager splitInput = emptyResult := by
  have h := (managed_fields_owned_union_and_exact_equality unitTestFieldManager splitInput
    splitSecret splitTemplate ["foo1", "foo3", "foo1", "foo2"]
    ["ghi", "abc", "def", "abc", "def"] rfl rfl (by decide)).2.2.1
  refine h.mpr ⟨?_, ?_⟩
  · intro k
    rw [show reduceOwnedAnnotationKeys (List.lookup TLSCertKey splitSecret.data).isSome
      ["foo1", "foo3", "foo1", "foo2"] = ["foo1", "foo3", "foo1", "foo2"] from by decide]
    simp only [splitTemplate, List.map, List.mem_cons, List.not_mem_nil, or_false]
    tauto
  · intro k
    simp only [splitTemplate, List.map, List.mem_cons, List.not_mem_nil, or_false]
    tauto

/-- Counterexample to claim C8 as stated: a Secret owning the
`common-name` derived annotation with no certificate payload stored, whose
template itself declares that key, yields no violation — the derived keys
are simply left in the owned set and compared against the template. -/
theorem derived_key_in_template_counterexample :
    SecretTemplateMismatchesSecretManagedFields unitTestFieldManager derivedKeyInput =
      emptyResult ∧
    List.lookup TLSCertKey derivedKeySecret.data = none ∧
    collectOwnedKeys unitTestFieldManager derivedKeySecret.managedFields =
      some ([CommonNameAnnotationKey], []) := by
  decide

/-- Claim C8 as amended: the four base cert-manager annotation keys are
always subtracted from the owned set, the four derived-from-cert keys only
when the Secret's data stores a certificate payload under the TLS cert
key; when no payload is present a derived key stays in the owned set, so
owning one that the template's annotations do not declare makes the policy
report `SecretTemplateMismatch`. -/
theorem derived_keys_subtracted_only_with_certificate_payload (fieldManager : String)
    (input : Input) (s : Secret) (tmpl : CertificateSecretTemplate) (anns labs : List String)
    (hsec : input.secret = some s)
    (htmpl : input.certificate.secretTemplate = some tmpl)
    (hcollect : collectOwnedKeys fieldManager s.managedFields = some (anns, labs)) :
    (∀ k, k ∈ reduceOwnedAnnotationKeys ((List.lookup TLSCertKey s.data).isSome) anns ↔
      (k ∈ anns ∧ k ∉ baseAnnotationKeys ∧
        ((List.lookup TLSCertKey s.data).isSome = true → k ∉ certDerivedAnnotationKeys))) ∧
    (∀ k, List.lookup TLSCertKey s.data = none → k ∈ certDerivedAnnotationKeys → k ∈ anns →
      k ∉ tmpl.annotations.map Prod.fst →
      SecretTemplateMismatchesSecretManagedFields fieldManager input =
        ⟨SecretTemplateMismatch, "Certificate's SecretTemplate doesn't match Secret", true⟩) := by
  constructor
  · intro k
    exact reduceOwnedAnnotationKeys_mem _ _ k
  · intro k hnone hder hin hnotin
    have hr := managedFields_result fieldManager input s tmpl anns labs hsec htmpl hcollect
    rcases hr.1 with hemp | hmis
    · exfalso
      have hsets := hr.2.mp hemp
      have hkmem : k ∈ reduceOwnedAnnotationKeys ((List.lookup TLSCertKey s.data).isSome) anns := by
        rw [reduceOwnedAnnotationKeys_mem]
        refine ⟨hin, ?_, ?_⟩
        · have hdisj : ∀ x ∈ certDerivedAnnotationKeys, x ∉ baseAnnotationKeys := by decide
          exact hdisj k hder
        · intro hpres
          rw [hnone] at hpres
          simp at hpres
      exact hnotin ((hsets.1 k).mp hkmem)
    · exact hmis

/-- Witness for the amended claim C8 at the derived-keys-without-payload
test scenario. -/
theorem derived_keys_subtracted_only_with_certificate_payload_witness :
    SecretTemplateMismatchesSecretManagedFields unitTestFieldManager derivedOwnedInput =
      ⟨SecretTemplateMismatch, "Certificate's SecretTemplate doesn't match Secret", true⟩ := by
  have h := (derived_keys_subtracted_only_with_certificate_payload unitTestFieldManager
    derivedOwnedInput derivedOwnedSecret derivedOwnedTemplate
    ["foo1", "foo2", CertificateNameKey, IssuerNameAnnotationKey, IssuerKindAnnotationKey,
     IssuerGroupAnnotationKey, CommonNameAnnotationKey, AltNamesAnnotationKey,
     IPSANAnnotationKey, URISANAnnotationKey] []
    rfl rfl (by decide)).2
  exact h CommonNameAnnotationKey (by decide) (by decide) (by decide) (by decide)

/-- Claim C9: `SecretTemplateMismatchesSecret` reports a violation exactly
when the template is non-nil and some declared annotation or label pair is
absent from, or carries a different value on, the Secret; a nil template
never yields a violation, and extra entries on the Secret are none
either. -/
theorem secret_template_mismatch_iff (input : Input) (s : Secret)
    (hsec : input.secret = some s) :
    ((SecretTemplateMismatchesSecret input).violated = true ↔
      ∃ tmpl, input.certificate.secretTemplate = some tmpl ∧
        ((∃ kv ∈ tmpl.annotations, List.lookup kv.1 s.annotations ≠ some kv.2) ∨
         (∃ kv ∈ tmpl.labels, List.lookup kv.1 s.labels ≠ some kv.2))) ∧
    (input.certificate.secretTemplate = none →
      SecretTemplateMismatchesSecret input = emptyResult) := by
  constructor
  · cases htmpl : input.certificate.secretTemplate with
    | none =>
        simp only [SecretTemplateMismatchesSecret, htmpl]
        simp [emptyResult]
    | some t =>
        simp only [SecretTemplateMismatchesSecret, htmpl, hsec, Option.some.injEq]
        constructor
        · intro hv
          refine ⟨t, rfl, ?_⟩
          by_cases ha : t.annotations.all (fun kv => List.lookup kv.1 s.annotations == some kv.2)
          · by_cases hl : t.labels.all (fun kv => List.lookup kv.1 s.labels == some kv.2)
            · rw [if_pos ha, if_pos hl] at hv
              exact absurd hv (by decide)
            · right
              rw [List.all_eq_true] at hl
              push_neg at hl
              rcases hl with ⟨kv, hkv, hne⟩
              refine ⟨kv, hkv, ?_⟩
              intro he
              exact hne (by rw [he]; exact beq_self_eq_true _)
          · left
            rw [List.all_eq_true] at ha
            push_neg at ha
            rcases ha with ⟨kv, hkv, hne⟩
            refine ⟨kv, hkv, ?_⟩
            intro he
            exact hne (by rw [he]; exact beq_self_eq_true _)
        · rintro ⟨t', ht', hbad⟩
          rcases ht' with rfl
          rcases hbad with ⟨kv, hkv, hne⟩ | ⟨kv, hkv, hne⟩
          · have ha : ¬ t.annotations.all (fun kv => List.lookup kv.1 s.annotations == some kv.2) := by
              rw [List.all_eq_true]
              push_neg
              exact ⟨kv, hkv, fun hb => hne (beq_iff_eq.mp hb)⟩
            rw [if_neg ha]
          · by_cases ha : t.annotations.all (fun kv => List.lookup kv.1 s.annotations == some kv.2)
            · have hl : ¬ t.labels.all (fun kv => List.lookup kv.1 s.labels == some kv.2) := by
                rw [List.all_eq_true]
                push_neg
                exact ⟨kv, hkv, fun hb => hne (beq_iff_eq.mp hb)⟩
              rw [if_pos ha, if_neg hl]
            · rw [if_neg ha]
  · intro htmpl
    simp [SecretTemplateMismatchesSecret, htmpl]

/-- Witness for claim C9 at a scenario with a template annotation carrying
a different value on the Secret. -/
theorem secret_template_mismatch_iff_witness :
    (SecretTemplateMismatchesSecret wrongValueInput).violated = true := by
  have h := (secret_template_mismatch_iff wrongValueInput wrongValueSecret rfl).1
  exact h.mpr ⟨wrongValueTemplate, rfl, Or.inl ⟨("foo1", "bar1"), by decide, by decide⟩⟩

end CertManagerPolicies
